import Mathlib

/-!
Shallow embedding of `add_response_header.go` (package `trace`): a buffering
HTTP response writer plus a header-rewrite middleware.  Strings stand for Go
byte slices; positions inside strings are character indices (the Go code uses
byte indices; the two coincide on the ASCII data handled here).  The real
response sink is modelled as a header map together with the trace of
status/body events that were transmitted to the underlying transport.
-/

namespace Trace

/-- An event transmitted to the real response sink: either a status line
(`WriteHeader`) or a chunk of body bytes (`Write`). -/
inductive SinkEvent where
  | status (code : Nat)
  | body (chunk : String)
  deriving DecidableEq, Repr

/-- `http.Header` modelled extensionally: a total map from header name to
value, where the empty string means "absent" (Go's `Header.Get` returns `""`
for a missing key).  MIME header-name canonicalisation is not modelled; every
name is used with a single spelling. -/
def HeaderMap : Type := String → String

/-- `Header.Get`. -/
def headerGet (h : HeaderMap) (k : String) : String := h k

/-- `Header.Set`. -/
def headerSet (h : HeaderMap) (k v : String) : HeaderMap :=
  fun k2 => if k2 = k then v else h k2

/-- The pair returned by a successful `Hijack`: the raw `net.Conn` and the
`*bufio.ReadWriter`, modelled as opaque handles. -/
structure HijackResult where
  conn : Nat
  readWriter : Nat
  deriving DecidableEq, Repr

/-- The real `http.ResponseWriter` underneath the wrapper.  `typeName` is the
dynamic Go type of the sink (what `%T` prints); `hijacker` is `some r` when
the sink also implements `http.Hijacker`, in which case delegating to its
`Hijack` method produces `r` (itself a success or an error). -/
structure ResponseWriter where
  typeName : String
  header : HeaderMap
  events : List SinkEvent
  hijacker : Option (Except String HijackResult)

/-- `wrappedResponseWriter`: the buffering adapter.  `w` is the borrowed real
sink, `buf` the owned byte accumulator, `code` the pending status. -/
structure WrappedResponseWriter where
  w : ResponseWriter
  buf : String
  code : Nat

/-- `func (w *wrappedResponseWriter) Header() http.Header`: returns the real
sink's live header collection. -/
def WrappedResponseWriter.Header (rw : WrappedResponseWriter) : HeaderMap :=
  rw.w.header

/-- `func (w *wrappedResponseWriter) Write(b []byte) (int, error)`: appends to
the internal buffer, returns the count written; the real sink is untouched and
no error can occur (modelled by returning the count alone). -/
def WrappedResponseWriter.Write (rw : WrappedResponseWriter) (b : String) :
    Nat × WrappedResponseWriter :=
  (b.length, { rw with buf := rw.buf ++ b })

/-- `func (w *wrappedResponseWriter) WriteHeader(code int)`: records the
status code without transmitting it. -/
def WrappedResponseWriter.WriteHeader (rw : WrappedResponseWriter) (code : Nat) :
    WrappedResponseWriter :=
  { rw with code := code }

/-- `func (w *wrappedResponseWriter) Flush()`: sends the recorded status code
to the real sink (`w.w.WriteHeader(w.code)`), then copies the accumulated
buffer to the real sink (`io.Copy(w.w, w.buf)`), draining the buffer. -/
def WrappedResponseWriter.Flush (rw : WrappedResponseWriter) : WrappedResponseWriter :=
  { rw with
    w := { rw.w with events := rw.w.events ++ [.status rw.code, .body rw.buf] }
    buf := "" }

/-- `func (w *wrappedResponseWriter) Hijack()`: if the real sink implements
`http.Hijacker`, delegate to it; otherwise fail with
`fmt.Errorf("%T is not an http.Hijacker", w.w)`. -/
def WrappedResponseWriter.Hijack (rw : WrappedResponseWriter) :
    Except String HijackResult :=
  match rw.w.hijacker with
  | some r => r
  | none => .error (rw.w.typeName ++ " is not an http.Hijacker")

/-- One entry of `regexp.FindAllStringSubmatchIndex`: the bounds of the whole
match and the index pairs of the capture groups (`groups.get? 0` is the whole
match, `groups.get? i` is group `i`; `none` is Go's `-1` pair for an
unmatched group). -/
structure Match where
  start : Nat
  stop : Nat
  groups : List (Option (Nat × Nat))
  deriving DecidableEq, Repr

/-- A compiled regular expression, abstracted by its matching engine:
`doExecute s pos` is the leftmost match of the pattern in `s` whose start is
at or after position `pos` (Go's `Regexp.doExecute`).  The surrounding
multi-match driver and template expansion are modelled concretely below. -/
structure Regex where
  doExecute : String → Nat → Option Match

/-- Well-formedness of a matching engine: any reported match starts at or
after the requested position and lies within the string. -/
def Regex.WF (re : Regex) : Prop :=
  ∀ s pos m, re.doExecute s pos = some m →
    pos ≤ m.start ∧ m.start ≤ m.stop ∧ m.stop ≤ s.length

/-- The loop body of Go's `Regexp.allMatches` (the engine driving
`FindAllStringSubmatchIndex(src, -1)`): repeatedly take the leftmost match at
or after `pos`; a non-empty match advances `pos` to its end; an empty match
advances `pos` by one character and is dropped when it starts exactly at the
previous match's end.  `fuel` bounds the iteration count (the Go loop runs at
most `len(s)+1` times since `pos` strictly increases and stays `≤ len(s)`). -/
def allMatchesAux (re : Regex) (s : String) :
    Nat → Nat → Option Nat → List Match
  | 0, _, _ => []
  | fuel + 1, pos, prevMatchEnd =>
    if pos > s.length then []
    else
      match re.doExecute s pos with
      | none => []
      | some m =>
        if m.stop = pos then
          if prevMatchEnd = some m.start then
            allMatchesAux re s fuel (pos + 1) (some m.stop)
          else
            m :: allMatchesAux re s fuel (pos + 1) (some m.stop)
        else
          m :: allMatchesAux re s fuel m.stop (some m.stop)

/-- `regexp.FindAllStringSubmatchIndex(s, -1)`: all successive non-overlapping
leftmost matches. -/
def Regex.findAll (re : Regex) (s : String) : List Match :=
  allMatchesAux re s (s.length + 1) 0 none

/-- `s[a:b]` (character-index slicing). -/
def substr (s : String) (a b : Nat) : String :=
  ((s.toList.drop a).take (b - a)).asString

/-- A character allowed in a `$name` reference in an expansion template:
letters, digits and underscore (Go's `extract`). -/
def isNameChar (c : Char) : Bool :=
  c.isAlpha || c.isDigit || c = '_'

/-- Go's `extract` turns a name into a capture-group number: names entirely
made of digits and without a leading zero are numeric references; everything
else is a named reference. -/
def nameToNum (name : List Char) : Option Nat :=
  match name with
  | [] => none
  | c :: _ =>
    if c = '0' then none
    else if name.all (fun d => d.isDigit) then
      some (name.foldl (fun acc d => acc * 10 + (d.toNat - '0'.toNat)) 0)
    else none

/-- The text of capture group `n` of match `m` in `src`; the empty string when
the group is out of range or unmatched (Go appends nothing in that case). -/
def groupText (src : String) (m : Match) (n : Nat) : String :=
  match m.groups.get? n with
  | some (some (a, b)) => substr src a b
  | _ => ""

/-- The loop of Go's `Regexp.expand`, character by character over the
template: `$$` is a literal `$`; `$name` / `${name}` with a numeric name is
replaced by that capture group's text; a named reference expands to nothing
(the patterns modelled here have no named groups); a malformed `$` is copied
verbatim.  `fuel` bounds recursion (one unit per consumed character). -/
def goExpandAux (src : String) (m : Match) : Nat → List Char → List Char
  | 0, _ => []
  | _ + 1, [] => []
  | fuel + 1, '$' :: rest =>
    match rest with
    | '$' :: rest2 => '$' :: goExpandAux src m fuel rest2
    | '{' :: rest2 =>
      let name := rest2.takeWhile isNameChar
      let after := rest2.drop name.length
      match name, after with
      | _ :: _, '}' :: rest3 =>
        (match nameToNum name with
         | some n => (groupText src m n).toList
         | none => []) ++ goExpandAux src m fuel rest3
      | _, _ => '$' :: goExpandAux src m fuel rest
    | _ =>
      let name := rest.takeWhile isNameChar
      match name with
      | [] => '$' :: goExpandAux src m fuel rest
      | _ :: _ =>
        (match nameToNum name with
         | some n => (groupText src m n).toList
         | none => []) ++ goExpandAux src m fuel (rest.drop name.length)
  | fuel + 1, c :: rest => c :: goExpandAux src m fuel rest

/-- `regexp.ExpandString(dst, template, src, match)` minus the destination
argument: the expansion of `template` for match `m` of `src` (the Go call
appends this to `dst`). -/
def expandString (template src : String) (m : Match) : String :=
  (goExpandAux src m template.toList.length template.toList).asString

/-- A value stored in a request's `context.Context`: either a `string` or a
value of some other dynamic type (whose Go type name is recorded). -/
inductive CtxValue where
  | str (s : String)
  | nonStr (typeName : String)
  deriving DecidableEq, Repr

/-- `*http.Request`, reduced to what the middleware reads: header lookup
(`Header.Get`, `""` for absent) and context-value lookup
(`Context().Value`). -/
structure Request where
  headers : String → String
  ctx : String → Option CtxValue

/-- An observable action of the downstream handler against the wrapped
response writer: a body write, a status set, or a header mutation (performed
through the live `Header()` collection). -/
inductive HandlerOp where
  | write (chunk : String)
  | writeHeader (code : Nat)
  | setHeader (k v : String)
  deriving DecidableEq, Repr

/-- Whether the downstream handler returned normally or panicked (Go's
deferred `Flush` runs in either case). -/
inductive Outcome where
  | normal
  | panicked
  deriving DecidableEq, Repr

/-- The downstream `http.Handler`, abstracted by its observable behaviour:
for a request it performs a sequence of writer operations and then returns or
panics. -/
def Handler : Type := Request → List HandlerOp × Outcome

/-- Apply one downstream operation to the wrapped writer. -/
def applyOp (rw : WrappedResponseWriter) : HandlerOp → WrappedResponseWriter
  | .write b => (rw.Write b).2
  | .writeHeader c => rw.WriteHeader c
  | .setHeader k v => { rw with w := { rw.w with header := headerSet rw.w.header k v } }

/-- Run the downstream handler's operations in order. -/
def runHandler (rw : WrappedResponseWriter) (ops : List HandlerOp) :
    WrappedResponseWriter :=
  ops.foldl applyOp rw

/-- `Config`: the five plugin options. -/
structure Config where
  From : String
  To : String
  Regexp : String
  Replacement : String
  Overwrite : Bool

/-- `func CreateConfig() *Config`: the defaults — match the entire string,
identity back-reference replacement. -/
def CreateConfig : Config :=
  { From := "", To := "", Regexp := "^(.*)$", Replacement := "$1", Overwrite := false }

/-- `type plugin struct`. -/
structure Plugin where
  name : String
  next : Handler
  config : Config
  regex : Regex

/-- The accumulated expansion of lines 132-140: fold `ExpandString` over all
matches, starting from the empty buffer. -/
def rewriteResult (re : Regex) (template src : String) : String :=
  (re.findAll src).foldl (fun acc m => acc ++ expandString template src m) ""

/-- Lines 123-145 of `ServeHTTP`: the header-rewrite decision, executed after
the downstream handler returns and before the deferred flush. -/
def rewriteStep (p : Plugin) (req : Request) (resp : WrappedResponseWriter) :
    WrappedResponseWriter :=
  if p.config.Overwrite = false ∧ headerGet resp.w.header p.config.To ≠ "" then resp
  else
    let src := req.headers p.config.From
    if src = "" then resp
    else
      let replacement := rewriteResult p.regex p.config.Replacement src
      if replacement.length > 0 then
        match req.ctx "tracing.traceID" with
        | some (.str traceID) =>
          { resp with w := { resp.w with header := headerSet resp.w.header p.config.To traceID } }
        | _ => resp
      else resp

/-- `func (p *plugin) ServeHTTP(w, req)`: wrap the sink in a fresh buffering
writer (status initialised to 200), defer a single flush, run the downstream
handler, then — on normal return only — the rewrite step; the deferred flush
runs on every exit path, including a downstream panic.  The function's
opening debug print of the "traceparent" header goes to stdout only and is
not modelled. -/
def Plugin.ServeHTTP (p : Plugin) (w : ResponseWriter) (req : Request) :
    ResponseWriter × Outcome :=
  let resp0 : WrappedResponseWriter := { w := w, buf := "", code := 200 }
  let handled := p.next req
  let resp1 := runHandler resp0 handled.1
  match handled.2 with
  | .panicked => ((resp1.Flush).w, .panicked)
  | .normal => (((rewriteStep p req resp1).Flush).w, .normal)

/-- `func New(ctx, next, config, name)`: validate the options and build the
plugin.  Pattern compilation (`regexp.Compile`) is the external library call,
passed in as `compile`. -/
def New (compile : String → Except String Regex) (next : Handler)
    (config : Config) (name : String) : Except String Plugin :=
  if config.From = "" then .error "from cannot be empty"
  else if config.To = "" then .error "to cannot be empty"
  else
    match compile config.Regexp with
    | .error e => .error ("failed to compile regexp: " ++ e)
    | .ok regex => .ok { name := name, next := next, config := config, regex := regex }

/-- Model of the compiled default pattern `^(.*)$` (no multiline flag): it
matches only at the start of the text, covering the whole string, with group
1 equal to the whole string; at any later position `^` cannot match. -/
def defaultRegex : Regex :=
  { doExecute := fun s pos =>
      if pos = 0 then
        some { start := 0, stop := s.length,
               groups := [some (0, s.length), some (0, s.length)] }
      else none }

/-- Number of status-line transmissions in a sink trace: each `Flush` of the
wrapper contributes exactly one. -/
def flushCount (events : List SinkEvent) : Nat :=
  events.countP fun e => match e with | .status _ => true | _ => false

/-! ### Basic lemmas about the embedded operations -/

theorem headerGet_headerSet_self (h : HeaderMap) (k v : String) :
    headerGet (headerSet h k v) k = v := by
  simp [headerGet, headerSet]

theorem headerGet_headerSet_ne (h : HeaderMap) (k k' v : String) (hne : k ≠ k') :
    headerGet (headerSet h k' v) k = headerGet h k := by
  simp [headerGet, headerSet, hne]

theorem applyOp_events (rw : WrappedResponseWriter) (op : HandlerOp) :
    (applyOp rw op).w.events = rw.w.events := by
  cases op <;> rfl

theorem runHandler_events (ops : List HandlerOp) (rw : WrappedResponseWriter) :
    (runHandler rw ops).w.events = rw.w.events := by
  induction ops generalizing rw with
  | nil => rfl
  | cons op ops ih =>
    show (runHandler (applyOp rw op) ops).w.events = rw.w.events
    rw [ih, applyOp_events]

theorem applyOp_headerGet (rw : WrappedResponseWriter) (op : HandlerOp) (k : String)
    (hop : ∀ k2 v, op = HandlerOp.setHeader k2 v → k2 ≠ k) :
    headerGet (applyOp rw op).w.header k = headerGet rw.w.header k := by
  cases op with
  | write b => rfl
  | writeHeader c => rfl
  | setHeader k2 v =>
    exact headerGet_headerSet_ne _ _ _ _ (Ne.symm (hop k2 v rfl))

theorem runHandler_headerGet (ops : List HandlerOp) (rw : WrappedResponseWriter)
    (k : String) (hops : ∀ k2 v, HandlerOp.setHeader k2 v ∈ ops → k2 ≠ k) :
    headerGet (runHandler rw ops).w.header k = headerGet rw.w.header k := by
  induction ops generalizing rw with
  | nil => rfl
  | cons op ops ih =>
    show headerGet (runHandler (applyOp rw op) ops).w.header k = _
    rw [ih _ fun k2 v hmem => hops k2 v (List.mem_cons_of_mem _ hmem),
      applyOp_headerGet _ _ _ fun k2 v hop =>
        hops k2 v (by rw [← hop]; exact List.mem_cons_self _ _)]

theorem Flush_header (rw : WrappedResponseWriter) :
    (rw.Flush).w.header = rw.w.header := rfl

theorem Flush_events (rw : WrappedResponseWriter) :
    (rw.Flush).w.events = rw.w.events ++ [.status rw.code, .body rw.buf] := rfl

theorem rewriteStep_preserves (p : Plugin) (req : Request) (resp : WrappedResponseWriter) :
    (rewriteStep p req resp).buf = resp.buf ∧
    (rewriteStep p req resp).code = resp.code ∧
    (rewriteStep p req resp).w.events = resp.w.events := by
  simp only [rewriteStep]
  repeat' split
  all_goals exact ⟨rfl, rfl, rfl⟩

theorem flushCount_flush (evs : List SinkEvent) (code : Nat) (b : String) :
    flushCount (evs ++ [SinkEvent.status code, SinkEvent.body b]) = flushCount evs + 1 := by
  simp [flushCount, List.countP_append, List.countP_cons]

theorem length_ne_zero_of_ne_empty (s : String) (h : s ≠ "") : s.length ≠ 0 := by
  intro h0
  apply h
  cases s with
  | mk data =>
    cases data with
    | nil => rfl
    | cons c cs => simp [String.length] at h0

theorem foldl_append_shift (xs : List String) (a b : String) :
    xs.foldl (· ++ ·) (a ++ b) = a ++ xs.foldl (· ++ ·) b := by
  induction xs generalizing b with
  | nil => rfl
  | cons x xs ih =>
    simp only [List.foldl_cons]
    rw [String.append_assoc, ih]

theorem join_cons (x : String) (xs : List String) :
    String.join (x :: xs) = x ++ String.join xs := by
  show xs.foldl (· ++ ·) ("" ++ x) = x ++ xs.foldl (· ++ ·) ""
  rw [String.empty_append, ← String.append_empty x, foldl_append_shift,
    String.append_empty]

theorem foldl_append_eq_join (f : Match → String) (l : List Match) (init : String) :
    l.foldl (fun acc m => acc ++ f m) init = init ++ String.join (l.map f) := by
  induction l generalizing init with
  | nil => exact (String.append_empty init).symm
  | cons m l ih =>
    simp only [List.foldl_cons, List.map_cons, join_cons, ih]
    rw [String.append_assoc]

theorem allMatchesAux_mem_start (re : Regex) (hwf : re.WF) (s : String) :
    ∀ fuel pos pme m, m ∈ allMatchesAux re s fuel pos pme → pos ≤ m.start := by
  intro fuel
  induction fuel with
  | zero =>
    intro pos pme m hm
    simp [allMatchesAux] at hm
  | succ fuel ih =>
    intro pos pme m hm
    rw [allMatchesAux] at hm
    split at hm
    · simp at hm
    · split at hm
      · simp at hm
      · rename_i m0 hexec
        obtain ⟨h1, h2, h3⟩ := hwf s pos m0 hexec
        split at hm
        · split at hm
          · have := ih (pos + 1) (some m0.stop) m hm
            omega
          · rcases List.mem_cons.mp hm with h | h
            · subst h; exact h1
            · have := ih (pos + 1) (some m0.stop) m h
              omega
        · rcases List.mem_cons.mp hm with h | h
          · subst h; exact h1
          · have := ih m0.stop (some m0.stop) m h
            omega

theorem allMatchesAux_chain (re : Regex) (hwf : re.WF) (s : String) :
    ∀ fuel pos pme,
      List.Chain' (fun a b => a.stop ≤ b.start) (allMatchesAux re s fuel pos pme) := by
  intro fuel
  induction fuel with
  | zero =>
    intro pos pme
    simp [allMatchesAux]
  | succ fuel ih =>
    intro pos pme
    rw [allMatchesAux]
    split
    · simp
    · split
      · simp
      · rename_i m0 hexec
        obtain ⟨h1, h2, h3⟩ := hwf s pos m0 hexec
        split
        · rename_i hstop
          split
          · exact ih _ _
          · rw [List.chain'_cons']
            refine ⟨fun b hb => ?_, ih _ _⟩
            have := allMatchesAux_mem_start re hwf s fuel (pos + 1) (some m0.stop) b
              (List.mem_of_mem_head? hb)
            omega
        · rw [List.chain'_cons']
          refine ⟨fun b hb => ?_, ih _ _⟩
          have := allMatchesAux_mem_start re hwf s fuel m0.stop (some m0.stop) b
            (List.mem_of_mem_head? hb)
          omega

/-- The matches delivered for a well-formed engine are non-overlapping and in
left-to-right order. -/
theorem findAll_chain (re : Regex) (hwf : re.WF) (s : String) :
    List.Chain' (fun a b => a.stop ≤ b.start) (re.findAll s) :=
  allMatchesAux_chain re hwf s _ 0 none

/-- The default pattern matches exactly once on any non-empty string: the
whole string, with group 1 equal to the whole string. -/
theorem defaultRegex_findAll (s : String) (hs : s ≠ "") :
    defaultRegex.findAll s =
      [{ start := 0, stop := s.length,
         groups := [some (0, s.length), some (0, s.length)] }] := by
  obtain ⟨k, hk⟩ := Nat.exists_eq_succ_of_ne_zero (length_ne_zero_of_ne_empty s hs)
  rw [Regex.findAll, hk]
  rw [allMatchesAux]
  simp only [defaultRegex, hk]
  norm_num
  rw [allMatchesAux]
  simp

theorem defaultRegex_WF : defaultRegex.WF := by
  intro s pos m hm
  simp only [defaultRegex] at hm
  split at hm
  · cases hm
    rename_i hpos
    subst hpos
    simp
  · cases hm

/-- The accumulated rewrite result is the concatenation, in match order, of
the per-match expansions of the replacement template. -/
theorem rewriteResult_eq_join (re : Regex) (template s : String) :
    rewriteResult re template s =
      String.join ((re.findAll s).map (expandString template s)) := by
  rw [rewriteResult, foldl_append_eq_join, String.empty_append]

/-! ### Claim theorems -/

/-- Claim C6: when the source request header is absent or empty, the rewrite
step exits without doing anything, and the destination response header (indeed
every header) after serving is exactly what the downstream handler produced —
this component never sets it. -/
theorem missing_source_is_noop
    (p : Plugin) (w : ResponseWriter) (req : Request) (resp : WrappedResponseWriter)
    (hsrc : req.headers p.config.From = "") :
    rewriteStep p req resp = resp ∧
    (p.ServeHTTP w req).1.header =
      (runHandler { w := w, buf := "", code := 200 } (p.next req).1).w.header := by
  have hnoop : ∀ resp' : WrappedResponseWriter, rewriteStep p req resp' = resp' := by
    intro resp'
    simp only [rewriteStep]
    rw [if_pos hsrc]
    split <;> rfl
  refine ⟨hnoop resp, ?_⟩
  simp only [Plugin.ServeHTTP]
  split
  · rfl
  · rw [hnoop]
    rfl

/-- Concrete inputs exercising claim C6: a request without the source header,
against a downstream handler that sets an unrelated header. -/
def pluginC6 : Plugin :=
  { name := "trace"
    next := fun _ => ([.setHeader "Content-Type" "text/plain"], .normal)
    config := { From := "traceparent", To := "X-Trace-Id", Regexp := "^(.*)$",
                Replacement := "$1", Overwrite := false }
    regex := defaultRegex }

def sinkC6 : ResponseWriter :=
  { typeName := "*mockWriter", header := fun _ => "", events := [], hijacker := none }

def requestC6 : Request :=
  { headers := fun _ => ""
    ctx := fun k => if k = "tracing.traceID" then some (.str "abc-123") else none }

def respC6 : WrappedResponseWriter :=
  { w := sinkC6, buf := "", code := 200 }

theorem missing_source_is_noop_witness :
    rewriteStep pluginC6 requestC6 respC6 = respC6 ∧
    (pluginC6.ServeHTTP sinkC6 requestC6).1.header =
      (runHandler { w := sinkC6, buf := "", code := 200 }
        (pluginC6.next requestC6).1).w.header :=
  missing_source_is_noop pluginC6 sinkC6 requestC6 respC6 rfl

/-- Claim C7: a pattern that matches zero times against the source value
yields an empty accumulated expansion, and the rewrite step is then a benign
no-op — no destination header is set and no error is possible. -/
theorem zero_matches_is_noop
    (p : Plugin) (req : Request) (resp : WrappedResponseWriter)
    (hm : p.regex.findAll (req.headers p.config.From) = []) :
    rewriteResult p.regex p.config.Replacement (req.headers p.config.From) = "" ∧
    rewriteStep p req resp = resp := by
  have hres : rewriteResult p.regex p.config.Replacement (req.headers p.config.From) = "" := by
    rw [rewriteResult, hm]
    rfl
  refine ⟨hres, ?_⟩
  simp only [rewriteStep]
  split
  · rfl
  · split
    · rfl
    · rw [hres]
      simp

/-- Concrete inputs exercising claim C7: a compiled pattern that matches
nowhere (for example a never-matching pattern), a request carrying a non-empty
source header, and a fresh buffering writer. -/
def pluginC7 : Plugin :=
  { name := "trace"
    next := fun _ => ([], .normal)
    config := { From := "traceparent", To := "X-Trace-Id", Regexp := "a^bc",
                Replacement := "$1", Overwrite := false }
    regex := { doExecute := fun _ _ => none } }

def requestC7 : Request :=
  { headers := fun k => if k = "traceparent" then "foo" else ""
    ctx := fun k => if k = "tracing.traceID" then some (.str "abc-123") else none }

def respC7 : WrappedResponseWriter :=
  { w := { typeName := "*mockWriter", header := fun _ => "", events := [], hijacker := none }
    buf := "", code := 200 }

theorem zero_matches_is_noop_witness :
    rewriteResult pluginC7.regex pluginC7.config.Replacement
      (requestC7.headers pluginC7.config.From) = "" ∧
    rewriteStep pluginC7 requestC7 respC7 = respC7 :=
  zero_matches_is_noop pluginC7 requestC7 respC7 rfl

/-- Claim C8: `Hijack` delegates directly to the real sink when it supports
raw-connection takeover, returning whatever the sink's own `Hijack` yields
(the raw connection plus the buffered read/write pair); otherwise it fails
with an error naming the sink's concrete type. -/
theorem hijack_delegates_or_names_type (rw : WrappedResponseWriter) :
    (∀ r, rw.w.hijacker = some r → rw.Hijack = r) ∧
    (rw.w.hijacker = none →
      rw.Hijack = .error (rw.w.typeName ++ " is not an http.Hijacker")) := by
  constructor
  · intro r hr
    unfold WrappedResponseWriter.Hijack
    rw [hr]
  · intro hr
    unfold WrappedResponseWriter.Hijack
    rw [hr]

theorem hijack_delegates_or_names_type_witness :
    WrappedResponseWriter.Hijack
      { w := { typeName := "*capableWriter", header := fun _ => "", events := [],
               hijacker := some (.ok { conn := 7, readWriter := 8 }) }
        buf := "", code := 200 } = .ok { conn := 7, readWriter := 8 } ∧
    WrappedResponseWriter.Hijack
      { w := { typeName := "*httptest.ResponseRecorder", header := fun _ => "",
               events := [], hijacker := none }
        buf := "", code := 200 } =
      .error "*httptest.ResponseRecorder is not an http.Hijacker" :=
  ⟨(hijack_delegates_or_names_type _).1 _ rfl,
    (hijack_delegates_or_names_type _).2 rfl⟩

/-- Claim C9: every request handled by `ServeHTTP` flushes the adapter exactly
once — on every exit path, including the skip conditions' early returns and a
panicking downstream handler, exactly one status-line transmission is added to
the real sink's trace by the deferred flush. -/
theorem serveHTTP_flushes_exactly_once
    (p : Plugin) (w : ResponseWriter) (req : Request) :
    flushCount (p.ServeHTTP w req).1.events = flushCount w.events + 1 := by
  simp only [Plugin.ServeHTTP]
  split
  · rw [Flush_events, flushCount_flush, runHandler_events]
  · rw [Flush_events, flushCount_flush, (rewriteStep_preserves _ _ _).2.2,
      runHandler_events]

/-- Shared lemma for the step-5 behaviour: once the skip gates have passed and
the accumulated expansion is non-empty, the step's result is decided solely by
the context value under the fixed trace key. -/
theorem rewriteStep_step5
    (p : Plugin) (req : Request) (resp : WrappedResponseWriter)
    (hgate : p.config.Overwrite = true ∨ headerGet resp.w.header p.config.To = "")
    (hsrc : req.headers p.config.From ≠ "")
    (hrepl : rewriteResult p.regex p.config.Replacement (req.headers p.config.From) ≠ "") :
    (∀ t, req.ctx "tracing.traceID" = some (CtxValue.str t) →
      (rewriteStep p req resp).w.header = headerSet resp.w.header p.config.To t) ∧
    (req.ctx "tracing.traceID" = none → rewriteStep p req resp = resp) := by
  have hcond : ¬(p.config.Overwrite = false ∧ headerGet resp.w.header p.config.To ≠ "") := by
    rcases hgate with h | h
    · rintro ⟨h1, -⟩
      rw [h] at h1
      cases h1
    · rintro ⟨-, h2⟩
      exact h2 h
  have hlen : (rewriteResult p.regex p.config.Replacement (req.headers p.config.From)).length > 0 := by
    have h0 := length_ne_zero_of_ne_empty _ hrepl
    omega
  constructor
  · intro t ht
    simp only [rewriteStep]
    rw [if_neg hcond, if_neg hsrc, if_pos hlen, ht]
  · intro ht
    simp only [rewriteStep]
    rw [if_neg hcond, if_neg hsrc, if_pos hlen, ht]

/-- Claim C1: when the rewrite reaches step 5 with a non-empty accumulated
regex result, the plugin reads the request context at the fixed trace key; a
present string value is written to the destination header (the expanded
string itself is discarded, serving only as a gate — the header receives the
trace value whatever the expansion was); an absent trace value means the
destination header is never set despite the non-empty expansion. -/
theorem step5_sets_trace_value_or_nothing
    (p : Plugin) (req : Request) (resp : WrappedResponseWriter)
    (hgate : p.config.Overwrite = true ∨ headerGet resp.w.header p.config.To = "")
    (hsrc : req.headers p.config.From ≠ "")
    (hrepl : rewriteResult p.regex p.config.Replacement (req.headers p.config.From) ≠ "") :
    (∀ t, req.ctx "tracing.traceID" = some (CtxValue.str t) →
      (rewriteStep p req resp).w.header = headerSet resp.w.header p.config.To t) ∧
    (req.ctx "tracing.traceID" = none → rewriteStep p req resp = resp) :=
  rewriteStep_step5 p req resp hgate hsrc hrepl

/-- Concrete inputs exercising claim C1: default pattern and replacement, a
populated source header, and a context holding the trace string under the
fixed key. -/
def pluginC1 : Plugin :=
  { name := "trace"
    next := fun _ => ([], .normal)
    config := { From := "traceparent", To := "X-Trace-Id", Regexp := "^(.*)$",
                Replacement := "$1", Overwrite := false }
    regex := defaultRegex }

def requestC1 : Request :=
  { headers := fun k => if k = "traceparent" then "foo" else ""
    ctx := fun k => if k = "tracing.traceID" then some (.str "abc-123") else none }

def respC1 : WrappedResponseWriter :=
  { w := { typeName := "*mockWriter", header := fun _ => "", events := [], hijacker := none }
    buf := "", code := 200 }

theorem step5_sets_trace_value_or_nothing_witness :
    (rewriteStep pluginC1 requestC1 respC1).w.header =
      headerSet respC1.w.header "X-Trace-Id" "abc-123" :=
  (step5_sets_trace_value_or_nothing pluginC1 requestC1 respC1
    (Or.inr rfl) (by decide) (by decide)).1 "abc-123" (by decide)

/-- Claim C5: with overwrite disabled and a non-empty destination header, the
rewrite step is a no-op; end to end, a destination header that is non-empty
going in stays unchanged through serving provided the downstream handler
itself never sets it. -/
theorem overwrite_disabled_is_noop
    (p : Plugin) (w : ResponseWriter) (req : Request) (resp : WrappedResponseWriter)
    (hov : p.config.Overwrite = false) :
    (headerGet resp.w.header p.config.To ≠ "" → rewriteStep p req resp = resp) ∧
    ((∀ k v, HandlerOp.setHeader k v ∈ (p.next req).1 → k ≠ p.config.To) →
      headerGet w.header p.config.To ≠ "" →
      headerGet (p.ServeHTTP w req).1.header p.config.To =
        headerGet w.header p.config.To) := by
  have hnoop : ∀ resp' : WrappedResponseWriter,
      headerGet resp'.w.header p.config.To ≠ "" → rewriteStep p req resp' = resp' := by
    intro resp' hne
    simp only [rewriteStep]
    rw [if_pos ⟨hov, hne⟩]
  refine ⟨hnoop resp, ?_⟩
  intro hnext hw
  have h1 : headerGet (runHandler { w := w, buf := "", code := 200 }
      (p.next req).1).w.header p.config.To = headerGet w.header p.config.To :=
    runHandler_headerGet _ _ _ hnext
  simp only [Plugin.ServeHTTP]
  split
  · exact h1
  · rw [Flush_header, hnoop _ (by rw [h1]; exact hw), h1]

/-- Concrete inputs exercising claim C5: overwrite disabled, a sink whose
destination header is already populated, and a downstream handler that writes
a body and a status but no header. -/
def pluginC5 : Plugin :=
  { name := "trace"
    next := fun _ => ([.write "x", .writeHeader 404], .normal)
    config := { From := "traceparent", To := "X-Trace-Id", Regexp := "^(.*)$",
                Replacement := "$1", Overwrite := false }
    regex := defaultRegex }

def sinkC5 : ResponseWriter :=
  { typeName := "*mockWriter"
    header := fun k => if k = "X-Trace-Id" then "keep-me" else ""
    events := []
    hijacker := none }

def requestC5 : Request :=
  { headers := fun k => if k = "traceparent" then "foo" else ""
    ctx := fun k => if k = "tracing.traceID" then some (.str "abc-123") else none }

theorem overwrite_disabled_is_noop_witness :
    headerGet (pluginC5.ServeHTTP sinkC5 requestC5).1.header "X-Trace-Id" =
      headerGet sinkC5.header "X-Trace-Id" :=
  (overwrite_disabled_is_noop pluginC5 sinkC5 requestC5
      { w := sinkC5, buf := "", code := 200 } rfl).2
    (by intro k v hmem; simp [pluginC5] at hmem) (by decide)

/-- Claim C10: the execution-context key consulted in step 5 is exactly the
bare string "tracing.traceID" — the step's outcome depends on the context only
through that key's value — and the stored value must be exactly a string: a
non-string value leaves the rewrite a no-op, while a string value (with the
gates passed) lands in the destination header. -/
theorem trace_key_fixed_and_string_typed
    (p : Plugin) (req req2 : Request) (resp : WrappedResponseWriter) :
    (req.headers = req2.headers →
      req.ctx "tracing.traceID" = req2.ctx "tracing.traceID" →
      rewriteStep p req resp = rewriteStep p req2 resp) ∧
    (∀ tn, req.ctx "tracing.traceID" = some (CtxValue.nonStr tn) →
      rewriteStep p req resp = resp) ∧
    (∀ t, (p.config.Overwrite = true ∨ headerGet resp.w.header p.config.To = "") →
      req.headers p.config.From ≠ "" →
      rewriteResult p.regex p.config.Replacement (req.headers p.config.From) ≠ "" →
      req.ctx "tracing.traceID" = some (CtxValue.str t) →
      headerGet (rewriteStep p req resp).w.header p.config.To = t) := by
  refine ⟨?_, ?_, ?_⟩
  · intro h1 h2
    simp only [rewriteStep, h1, h2]
  · intro tn ht
    simp only [rewriteStep, ht]
    repeat' split
    all_goals rfl
  · intro t hgate hsrc hrepl ht
    rw [(rewriteStep_step5 p req resp hgate hsrc hrepl).1 t ht]
    exact headerGet_headerSet_self _ _ _

/-- Concrete inputs exercising claim C10: a context storing a non-string value
under the fixed trace key. -/
def pluginC10 : Plugin :=
  { name := "trace"
    next := fun _ => ([], .normal)
    config := { From := "traceparent", To := "X-Trace-Id", Regexp := "^(.*)$",
                Replacement := "$1", Overwrite := false }
    regex := defaultRegex }

def requestC10 : Request :=
  { headers := fun k => if k = "traceparent" then "foo" else ""
    ctx := fun k => if k = "tracing.traceID" then some (.nonStr "int64") else none }

def respC10 : WrappedResponseWriter :=
  { w := { typeName := "*mockWriter", header := fun _ => "", events := [], hijacker := none }
    buf := "", code := 200 }

theorem trace_key_fixed_and_string_typed_witness :
    rewriteStep pluginC10 requestC10 respC10 = respC10 :=
  (trace_key_fixed_and_string_typed pluginC10 requestC10 requestC10 respC10).2.1
    "int64" (by decide)

/-- Claim C2: `Write` appends to the accumulator, never touches the real sink
and reports the count written; `Flush` transmits the recorded status code
followed by the entire accumulated body, in that order; a downstream handler
writing chunks "A", "B", "C" and setting status 201 makes the real sink
receive status 201 followed by the single body "ABC". -/
theorem write_buffers_and_flush_transmits
    (rw : WrappedResponseWriter) (b : String)
    (p : Plugin) (w : ResponseWriter) (req : Request)
    (hnext : p.next req =
      ([.write "A", .write "B", .write "C", .writeHeader 201], .normal))
    (hw : w.events = []) :
    (rw.Write b).2.w = rw.w ∧
    (rw.Write b).2.buf = rw.buf ++ b ∧
    (rw.Write b).1 = b.length ∧
    (rw.Flush).w.events = rw.w.events ++ [.status rw.code, .body rw.buf] ∧
    (p.ServeHTTP w req).1.events = [.status 201, .body "ABC"] := by
  refine ⟨rfl, rfl, rfl, rfl, ?_⟩
  have h1 : runHandler { w := w, buf := "", code := 200 }
      [.write "A", .write "B", .write "C", .writeHeader 201] =
      { w := w, buf := "ABC", code := 201 } := rfl
  simp only [Plugin.ServeHTTP, hnext, h1]
  rw [Flush_events]
  obtain ⟨hbuf, hcode, hev⟩ :=
    rewriteStep_preserves p req { w := w, buf := "ABC", code := 201 }
  rw [hbuf, hcode, hev, hw]
  rfl

/-- Concrete inputs exercising claim C2: a handler writing "A", "B", "C" with
status 201 over an empty sink. -/
def pluginC2 : Plugin :=
  { name := "trace"
    next := fun _ => ([.write "A", .write "B", .write "C", .writeHeader 201], .normal)
    config := { From := "traceparent", To := "X-Trace-Id", Regexp := "^(.*)$",
                Replacement := "$1", Overwrite := false }
    regex := defaultRegex }

def sinkC2 : ResponseWriter :=
  { typeName := "*mockWriter", header := fun _ => "", events := [], hijacker := none }

def requestC2 : Request :=
  { headers := fun _ => "", ctx := fun _ => none }

theorem write_buffers_and_flush_transmits_witness :
    (pluginC2.ServeHTTP sinkC2 requestC2).1.events = [.status 201, .body "ABC"] :=
  (write_buffers_and_flush_transmits
    { w := sinkC2, buf := "", code := 200 } "x" pluginC2 sinkC2 requestC2 rfl rfl).2.2.2.2

/-- Claim C3: the accumulated result of step 3 is the concatenation, in match
order, of the per-match expansions of the replacement template over the list
of non-overlapping left-to-right matches; in particular, with the default
pattern (which matches the whole string exactly once) the result on a
non-empty source is the template expanded exactly once. -/
theorem rewrite_concatenates_expansions_in_order
    (re : Regex) (s template src : String) (hwf : re.WF) (hsrc : src ≠ "") :
    rewriteResult re template s =
      String.join ((re.findAll s).map (expandString template s)) ∧
    List.Chain' (fun a b => a.stop ≤ b.start) (re.findAll s) ∧
    rewriteResult defaultRegex template src =
      expandString template src
        { start := 0, stop := src.length,
          groups := [some (0, src.length), some (0, src.length)] } := by
  refine ⟨rewriteResult_eq_join re template s, findAll_chain re hwf s, ?_⟩
  rw [rewriteResult, defaultRegex_findAll src hsrc]
  simp only [List.foldl_cons, List.foldl_nil]
  rw [String.empty_append]

theorem rewrite_concatenates_expansions_in_order_witness :
    rewriteResult defaultRegex "$1" "foo" =
      expandString "$1" "foo" { start := 0, stop := 3, groups := [some (0, 3), some (0, 3)] } :=
  (rewrite_concatenates_expansions_in_order defaultRegex "foo" "$1" "foo"
    defaultRegex_WF (by decide)).2.2

/-- Claim C4: construction fails with a descriptive error — and returns no
handler — when the source name is empty, the destination name is empty, or
the pattern does not compile; with non-empty names and a compilable pattern
it returns the ready-to-serve handler. -/
theorem New_validates_config
    (compile : String → Except String Regex) (next : Handler)
    (config : Config) (name : String) :
    (config.From = "" → New compile next config name = .error "from cannot be empty") ∧
    (config.From ≠ "" → config.To = "" →
      New compile next config name = .error "to cannot be empty") ∧
    (∀ e, config.From ≠ "" → config.To ≠ "" → compile config.Regexp = .error e →
      New compile next config name = .error ("failed to compile regexp: " ++ e)) ∧
    (∀ re, config.From ≠ "" → config.To ≠ "" → compile config.Regexp = .ok re →
      New compile next config name =
        .ok { name := name, next := next, config := config, regex := re }) := by
  refine ⟨?_, ?_, ?_, ?_⟩
  · intro h
    simp [New, h]
  · intro h1 h2
    simp [New, h1, h2]
  · intro e h1 h2 h3
    simp [New, h1, h2, h3]
  · intro re h1 h2 h3
    simp [New, h1, h2, h3]

/-- A model of `regexp.Compile` over the two patterns the witness uses: the
default pattern compiles (to the model of its automaton); an unbalanced
pattern fails with the library's message. -/
def compileC4 : String → Except String Regex := fun pat =>
  if pat = "^(.*)$" then .ok defaultRegex
  else .error "error parsing regexp: missing closing ): ("

def handlerC4 : Handler := fun _ => ([], .normal)

def cfgGoodC4 : Config :=
  { From := "traceparent", To := "X-Trace-Id", Regexp := "^(.*)$",
    Replacement := "$1", Overwrite := false }

def cfgBadC4 : Config :=
  { From := "traceparent", To := "X-Trace-Id", Regexp := "(",
    Replacement := "$1", Overwrite := false }

theorem New_validates_config_witness :
    New compileC4 handlerC4 { cfgGoodC4 with From := "" } "trace" =
      .error "from cannot be empty" ∧
    New compileC4 handlerC4 { cfgGoodC4 with To := "" } "trace" =
      .error "to cannot be empty" ∧
    New compileC4 handlerC4 cfgBadC4 "trace" =
      .error ("failed to compile regexp: " ++ "error parsing regexp: missing closing ): (") ∧
    New compileC4 handlerC4 cfgGoodC4 "trace" =
      .ok { name := "trace", next := handlerC4, config := cfgGoodC4, regex := defaultRegex } :=
  ⟨(New_validates_config compileC4 handlerC4 _ "trace").1 rfl,
    (New_validates_config compileC4 handlerC4 _ "trace").2.1 (by decide) rfl,
    (New_validates_config compileC4 handlerC4 cfgBadC4 "trace").2.2.1 _
      (by decide) (by decide) rfl,
    (New_validates_config compileC4 handlerC4 cfgGoodC4 "trace").2.2.2 defaultRegex
      (by decide) (by decide) rfl⟩

end Trace
